import Mathlib

/-!
Verification of the tick-tock time-tracking core (`project_data.py`).

The Python source is shallowly embedded: timestamps become rationals
(seconds), Python dictionaries become association lists, mutation becomes
explicit state passing, and Python `round` (banker's rounding, ties to
even) is modelled exactly on `ℚ`.
-/

namespace TickTock

/-- Python `round` on an exact rational: round half to even. -/
def pyRound (q : ℚ) : ℤ :=
  let n : ℤ := ⌊q⌋
  let r : ℚ := q - n
  if r < 1/2 then n
  else if 1/2 < r then n + 1
  else if 2 ∣ n then n else n + 1

/-- The `TimeRecord` dataclass: time spent for one date.  `last_started`
holds the wall-clock instant (seconds, exact) when timing last began. -/
structure TimeRecord where
  date : String
  total_seconds : ℤ := 0
  last_started : Option ℚ := none
  is_running : Bool := false
  sub_activity_seconds : List (String × ℤ) := []
deriving DecidableEq, Repr

/-- Fresh record (`TimeRecord(date=today)`). -/
def TimeRecord.fresh (d : String) : TimeRecord := { date := d }

/-- Python `TimeRecord.add_time`. -/
def TimeRecord.add_time (r : TimeRecord) (seconds : ℤ) : TimeRecord :=
  { r with total_seconds := r.total_seconds + seconds }

/-- Python `TimeRecord.start_timing` at wall-clock instant `now`. -/
def TimeRecord.start_timing (r : TimeRecord) (now : ℚ) : TimeRecord :=
  { r with is_running := true, last_started := some now }

/-- Python `TimeRecord.stop_timing` at wall-clock instant `now`: only acts when
`is_running` and `last_started` is set; banks `max 1 (round elapsed)`. -/
def TimeRecord.stop_timing (r : TimeRecord) (now : ℚ) : TimeRecord :=
  match r.last_started with
  | some s =>
    if r.is_running then
      { r.add_time (max 1 (pyRound (now - s))) with
          is_running := false, last_started := none }
    else r
  | none => r

/-- One call in a start/stop sequence, with its wall-clock instant. -/
inductive TREvent where
  | start (t : ℚ)
  | stop (t : ℚ)
deriving DecidableEq, Repr

/-- Apply one call to a record. -/
def TimeRecord.applyEvent (r : TimeRecord) (e : TREvent) : TimeRecord :=
  match e with
  | .start t => r.start_timing t
  | .stop t => r.stop_timing t

/-- Run a whole sequence of start/stop calls. -/
def TimeRecord.runSeq (r : TimeRecord) (evs : List TREvent) : TimeRecord :=
  evs.foldl TimeRecord.applyEvent r

/-- Spec-side notion of the completed runs of a call sequence: the elapsed
time of every run that is closed by a `stop` finding the record running,
measured from the most recent `start`. -/
def completedRuns (running : Bool) (since : Option ℚ) :
    List TREvent → List ℚ
  | [] => []
  | .start t :: evs => completedRuns true (some t) evs
  | .stop t :: evs =>
    match running, since with
    | true, some s => (t - s) :: completedRuns false none evs
    | _, _ => completedRuns running since evs

theorem runSeq_total (evs : List TREvent) : ∀ r : TimeRecord,
    (r.runSeq evs).total_seconds
      = r.total_seconds
        + ((completedRuns r.is_running r.last_started evs).map
            (fun e => max 1 (pyRound e))).sum := by
  induction evs with
  | nil => intro r; simp [TimeRecord.runSeq, completedRuns]
  | cons e evs ih =>
    intro r
    cases e with
    | start t =>
      have h := ih (r.start_timing t)
      simp only [TimeRecord.runSeq, List.foldl_cons] at h ⊢
      simpa [TimeRecord.applyEvent, TimeRecord.start_timing,
        completedRuns] using h
    | stop t =>
      rcases hls : r.last_started with _ | s
      · have h := ih r
        simp only [TimeRecord.runSeq, List.foldl_cons] at h ⊢
        rcases hr : r.is_running <;>
          simpa [TimeRecord.applyEvent, TimeRecord.stop_timing, hls, hr,
            completedRuns] using h
      · rcases hr : r.is_running
        · have h := ih r
          simp only [TimeRecord.runSeq, List.foldl_cons] at h ⊢
          simpa [TimeRecord.applyEvent, TimeRecord.stop_timing, hls, hr,
            completedRuns] using h
        · have h := ih (r.stop_timing t)
          simp only [TimeRecord.runSeq, List.foldl_cons] at h ⊢
          simp [TimeRecord.applyEvent, TimeRecord.stop_timing, hls, hr,
            completedRuns, TimeRecord.add_time] at h ⊢
          omega

/-- C2: over any finite start/stop sequence, `total_seconds` ends at its
initial value plus `max 1 (round elapsed)` summed over the completed
runs; `stop_timing` on a non-running record is a no-op; a completed
`stop_timing` clears `is_running` and `last_started`. -/
theorem c2_total_seconds_accumulation (r : TimeRecord) (evs : List TREvent) :
    (r.runSeq evs).total_seconds
      = r.total_seconds
        + ((completedRuns r.is_running r.last_started evs).map
            (fun e => max 1 (pyRound e))).sum
    ∧ (∀ now : ℚ, r.is_running = false → r.stop_timing now = r)
    ∧ (∀ (now s : ℚ), r.is_running = true → r.last_started = some s →
        (r.stop_timing now).is_running = false
          ∧ (r.stop_timing now).last_started = none) := by
  refine ⟨runSeq_total evs r, ?_, ?_⟩
  · intro now hr
    rcases hls : r.last_started with _ | s <;>
      simp [TimeRecord.stop_timing, hls, hr]
  · intro now s hr hls
    simp [TimeRecord.stop_timing, hls, hr, TimeRecord.add_time]

theorem c2_total_seconds_accumulation_witness :
    (TimeRecord.runSeq { date := "2024-01-01" }
        [TREvent.start 10, TREvent.stop (25/2), TREvent.stop 20,
          TREvent.start 30, TREvent.start 31, TREvent.stop 32]).total_seconds
      = 0 + ((completedRuns false none
          [TREvent.start 10, TREvent.stop (25/2), TREvent.stop 20,
            TREvent.start 30, TREvent.start 31, TREvent.stop 32]).map
            (fun e => max 1 (pyRound e))).sum := by
  have h := c2_total_seconds_accumulation { date := "2024-01-01" }
    [TREvent.start 10, TREvent.stop (25/2), TREvent.stop 20,
      TREvent.start 30, TREvent.start 31, TREvent.stop 32]
  exact h.1

/-- C9: on a record with `is_running = true` but `last_started = none`,
`stop_timing` is a complete no-op: the record is returned unchanged, so
`is_running` stays true and nothing is banked. -/
theorem c9_stop_timing_running_without_start_noop
    (r : TimeRecord) (now : ℚ)
    (hr : r.is_running = true) (hls : r.last_started = none) :
    r.stop_timing now = r := by
  simp [TimeRecord.stop_timing, hls]

theorem c9_stop_timing_running_without_start_noop_witness :
    TimeRecord.stop_timing
        { date := "2024-01-01", total_seconds := 7, is_running := true } 5
      = { date := "2024-01-01", total_seconds := 7, is_running := true } :=
  c9_stop_timing_running_without_start_noop _ 5 rfl rfl

/-! ## Projects, sub-activities and the manager -/

/-- Truthiness of a Python `Optional[str]`: `None` and `""` are falsy. -/
def pyTruthy : Option String → Bool
  | none => false
  | some s => s != ""

/-- Date-keyed record maps (`Dict[str, TimeRecord]`), in insertion order. -/
abbrev RecMap := List (String × TimeRecord)

/-- The membership test `today in self.time_records`. -/
def containsKey (d : String) (recs : RecMap) : Bool :=
  recs.any (fun kv => kv.1 == d)

/-- First half of `get_today_record`: insert a fresh record if absent. -/
def ensureToday (today : String) (recs : RecMap) : RecMap :=
  if containsKey today recs then recs
  else recs ++ [(today, TimeRecord.fresh today)]

/-- Python `get_today_record` followed by mutating the returned record with `f`. -/
def modifyToday (today : String) (f : TimeRecord → TimeRecord)
    (recs : RecMap) : RecMap :=
  (ensureToday today recs).map
    (fun kv => if kv.1 == today then (kv.1, f kv.2) else kv)

/-- The `SubActivity` dataclass. -/
structure SubActivity where
  name : String
  «alias» : String
  time_records : RecMap
deriving DecidableEq, Repr

/-- The `Project` dataclass. -/
structure Project where
  name : String
  dz_number : String
  «alias» : String
  sub_activities : List SubActivity
  time_records : RecMap
deriving DecidableEq, Repr

/-- Python `Project.get_sub_activity`: first sub-activity with the alias. -/
def Project.get_sub_activity (p : Project) (a : String) : Option SubActivity :=
  p.sub_activities.find? (fun s => s.alias == a)

/-- Python `Project.add_sub_activity`: appends unconditionally and returns the
new sub-activity. -/
def Project.add_sub_activity (p : Project) (name a : String) :
    SubActivity × Project :=
  let s : SubActivity := ⟨name, a, []⟩
  (s, { p with sub_activities := p.sub_activities ++ [s] })

/-- The in-memory state of `ProjectDataManager` used by the timer and
selection operations. -/
structure Manager where
  projects : List Project
  current_project_alias : Option String := none
  current_sub_activity_alias : Option String := none
deriving DecidableEq, Repr

/-- Python `ProjectDataManager.get_project`: first project with the alias. -/
def Manager.get_project (m : Manager) (a : String) : Option Project :=
  m.projects.find? (fun p => p.alias == a)

/-- Python `ProjectDataManager.get_current_project`. -/
def Manager.get_current_project (m : Manager) : Option Project :=
  match m.current_project_alias with
  | some a => if a == "" then none else m.get_project a
  | none => none

/-- Python `ProjectDataManager.set_current_project`. -/
def Manager.set_current_project (m : Manager) (a : String) :
    Bool × Manager :=
  if (m.get_project a).isSome then
    (true, { m with current_project_alias := some a,
                    current_sub_activity_alias := none })
  else (false, m)

/-- Mutation through a Python reference obtained by a linear search:
update the first list element satisfying `pred`. -/
def updateFirst {α : Type} (pred : α → Bool) (f : α → α) :
    List α → List α
  | [] => []
  | x :: xs => if pred x then f x :: xs else x :: updateFirst pred f xs

/-- The body of `stop_all_timers` on one record map: fetch (and create)
today's record, stop it if it is running. -/
def stopTodayIfRunning (today : String) (now : ℚ) (recs : RecMap) : RecMap :=
  modifyToday today (fun r => if r.is_running then r.stop_timing now else r)
    recs

/-- Start today's record (creating it if absent). -/
def startToday (today : String) (now : ℚ) (recs : RecMap) : RecMap :=
  modifyToday today (fun r => r.start_timing now) recs

/-- Python `stop_all_timers` restricted to one project. -/
def Project.stopAllToday (p : Project) (today : String) (now : ℚ) : Project :=
  { p with
      time_records := stopTodayIfRunning today now p.time_records,
      sub_activities := p.sub_activities.map (fun s =>
        { s with time_records := stopTodayIfRunning today now s.time_records }) }

/-- Python `ProjectDataManager.stop_all_timers` at date `today`, instant `now`. -/
def Manager.stop_all_timers (m : Manager) (today : String) (now : ℚ) :
    Manager :=
  { m with projects := m.projects.map (fun p => p.stopAllToday today now) }

/-- Start the today-record of one project (the `project.get_today_record()
.start_timing()` line). -/
def Project.startOwnToday (today : String) (now : ℚ) (q : Project) : Project :=
  { q with time_records := startToday today now q.time_records }

/-- Start the today-record of one sub-activity. -/
def SubActivity.startOwnToday (today : String) (now : ℚ) (s : SubActivity) :
    SubActivity :=
  { s with time_records := startToday today now s.time_records }

/-- Start the today-record of the first sub-activity with alias `sa`, when
it exists (the `get_sub_activity` / `start_timing` lines). -/
def Project.startSubToday (sa today : String) (now : ℚ) (q : Project) :
    Project :=
  let subs := updateFirst (fun s => s.alias == sa)
    (SubActivity.startOwnToday today now) q.sub_activities
  { q with sub_activities := subs }

/-- Python `ProjectDataManager.start_current_timer`: stops all timers first, then
fails if there is no current project; otherwise starts the current
project's today-record and, when a sub-activity is selected and exists,
that sub-activity's today-record. -/
def Manager.start_current_timer (m : Manager) (today : String) (now : ℚ) :
    Bool × Manager :=
  let m1 := m.stop_all_timers today now
  match m1.get_current_project with
  | none => (false, m1)
  | some p =>
    let ps2 := updateFirst (fun q => q.alias == p.alias)
      (Project.startOwnToday today now) m1.projects
    let m2 := { m1 with projects := ps2 }
    let m3 :=
      match m2.current_sub_activity_alias with
      | some sa =>
        if sa == "" then m2
        else
          let ps3 := updateFirst (fun q => q.alias == p.alias)
            (Project.startSubToday sa today now) m2.projects
          { m2 with projects := ps3 }
      | none => m2
    (true, m3)

/-! ## Counting running records -/

/-- Number of running records in one record map (any date). -/
def countRunning (recs : RecMap) : ℕ :=
  (recs.filter (fun kv => kv.2.is_running)).length

/-- Running records of a project, its own and its sub-activities'. -/
def Project.runningCount (p : Project) : ℕ :=
  countRunning p.time_records
    + (p.sub_activities.map (fun s => countRunning s.time_records)).sum

/-- Running records across the whole graph. -/
def Manager.runningCount (m : Manager) : ℕ :=
  (m.projects.map Project.runningCount).sum

/-- Number of running records keyed to date `d` in one record map. -/
def countRunningAt (d : String) (recs : RecMap) : ℕ :=
  (recs.filter (fun kv => kv.1 == d && kv.2.is_running)).length

/-- Running project records keyed to `d`, across the whole graph. -/
def Manager.projRunningAt (m : Manager) (d : String) : ℕ :=
  (m.projects.map (fun p => countRunningAt d p.time_records)).sum

/-- Running sub-activity records keyed to `d`, across the whole graph. -/
def Manager.subRunningAt (m : Manager) (d : String) : ℕ :=
  (m.projects.map (fun p =>
    (p.sub_activities.map (fun s => countRunningAt d s.time_records)).sum)).sum

/-- Well-formedness a Python dict guarantees (distinct keys) together with
the documented record invariant (`running_since` set while running). -/
def RecsWF (recs : RecMap) : Prop :=
  (recs.map Prod.fst).Nodup
    ∧ ∀ kv ∈ recs, kv.2.is_running = true → kv.2.last_started ≠ none

/-- Graph-wide well-formedness. -/
def Manager.WF (m : Manager) : Prop :=
  ∀ p ∈ m.projects, RecsWF p.time_records
    ∧ ∀ s ∈ p.sub_activities, RecsWF s.time_records

/-- Sub-activities of a project carrying alias `a`. -/
def countSubAlias (a : String) (p : Project) : ℕ :=
  (p.sub_activities.filter (fun s => s.alias == a)).length

/-! ## Concrete example states -/

/-- A sub-activity with alias `s`. -/
def exSub : SubActivity := ⟨"Sub One", "s", []⟩

/-- A project with alias `p` holding `exSub`. -/
def exProj : Project := ⟨"Alpha", "DZ-1", "p", [exSub], []⟩

/-- A store with `exProj` selected, sub-activity `s` selected. -/
def exMgr : Manager := ⟨[exProj], some "p", some "s"⟩

/-- A record for 2024-01-02 that is currently running. -/
def runRec : TimeRecord :=
  { date := "2024-01-02", is_running := true, last_started := some 0 }

/-- A project whose today-record is running. -/
def runProj : Project := ⟨"Beta", "DZ-2", "q", [], [("2024-01-02", runRec)]⟩

/-- A store with a running timer but no current project selected. -/
def runMgr : Manager := ⟨[runProj], none, none⟩

/-! ## C1: the single-running-timer scan -/

/-- C1 fails as stated: with a project and one of its sub-activities both
selected, `start_current_timer()` leaves two records with
`is_running = true` (the project's and the sub-activity's today-records),
not at most one. -/
theorem c1_single_running_counterexample :
    (exMgr.start_current_timer "2024-01-02" 0).2.runningCount = 2 := by
  decide

/-- Record-map keys are untouched by `modifyToday` (beyond the possible
fresh today entry). -/
lemma keys_modifyToday (today : String) (f : TimeRecord → TimeRecord)
    (recs : RecMap) :
    (modifyToday today f recs).map Prod.fst
      = (ensureToday today recs).map Prod.fst := by
  unfold modifyToday
  rw [List.map_map]
  apply List.map_congr_left
  intro kv _
  show (if kv.1 == today then (kv.1, f kv.2) else kv).1 = kv.1
  split <;> rfl

/-- Here `containsKey` agrees with key membership. -/
lemma containsKey_iff (d : String) (recs : RecMap) :
    containsKey d recs = true ↔ d ∈ recs.map Prod.fst := by
  unfold containsKey
  simp [List.any_eq_true, List.mem_map, beq_iff_eq]

/-- The map `ensureToday` preserves distinctness of keys. -/
lemma keysNodup_ensureToday (today : String) (recs : RecMap)
    (h : (recs.map Prod.fst).Nodup) :
    ((ensureToday today recs).map Prod.fst).Nodup := by
  unfold ensureToday
  by_cases hc : containsKey today recs
  · simpa [hc] using h
  · have hmem : today ∉ recs.map Prod.fst := fun hmemc =>
      hc ((containsKey_iff today recs).mpr hmemc)
    simp only [hc, if_false, Bool.false_eq_true, List.map_append]
    simp [List.nodup_append, h, hmem]

/-- After the `stop_all_timers` body on one record map, no today-keyed
record is running, provided running records carried a start stamp. -/
lemma countRunningAt_stopTodayIfRunning (today : String) (now : ℚ)
    (recs : RecMap)
    (h : ∀ kv ∈ recs, kv.2.is_running = true → kv.2.last_started ≠ none) :
    countRunningAt today (stopTodayIfRunning today now recs) = 0 := by
  unfold countRunningAt stopTodayIfRunning modifyToday
  rw [List.length_eq_zero, List.filter_eq_nil]
  intro kv hkv
  rcases List.mem_map.mp hkv with ⟨kv0, hkv0, rfl⟩
  have hkv0' : kv0 ∈ recs ∨ kv0 = (today, TimeRecord.fresh today) := by
    unfold ensureToday at hkv0
    by_cases hc : containsKey today recs
    · simp [hc] at hkv0
      exact Or.inl hkv0
    · simp [hc] at hkv0
      rcases hkv0 with hin | hfresh
      · exact Or.inl hin
      · exact Or.inr (by simp [hfresh])
  rcases hkv0' with hin | hfresh
  · by_cases hk : kv0.1 == today
    · rcases hr : kv0.2.is_running
      · simp [hk, hr]
      · have hls := h kv0 hin hr
        rcases hls' : kv0.2.last_started with _ | s
        · exact absurd hls' hls
        · simp [hk, hr, TimeRecord.stop_timing, hls', TimeRecord.add_time]
    · simp [hk]
  · subst hfresh
    simp [TimeRecord.fresh]

/-- The number of entries keyed `d`. -/
def countKey (d : String) (recs : RecMap) : ℕ :=
  (recs.filter (fun kv => kv.1 == d)).length

/-- Running-at-`d` entries are at most the `d`-keyed entries. -/
lemma countRunningAt_le_countKey (d : String) (recs : RecMap) :
    countRunningAt d recs ≤ countKey d recs := by
  unfold countRunningAt countKey
  induction recs with
  | nil => simp
  | cons kv recs ih =>
    by_cases h1 : kv.1 == d
    · by_cases h2 : kv.2.is_running <;>
        simp [List.filter_cons, h1, h2] <;> omega
    · simp [List.filter_cons, h1]
      exact ih

/-- Expressing `countKey` as a count over the key list. -/
lemma countKey_eq_count (d : String) (recs : RecMap) :
    countKey d recs = (recs.map Prod.fst).count d := by
  unfold countKey
  rw [List.count, List.countP_map, ← List.countP_eq_length_filter]
  rfl

/-- With distinct keys, at most one entry is keyed `d`. -/
lemma countKey_le_one (d : String) (recs : RecMap)
    (h : (recs.map Prod.fst).Nodup) :
    countKey d recs ≤ 1 := by
  rw [countKey_eq_count]
  exact List.nodup_iff_count_le_one.mp h d

/-- The map `modifyToday` keeps every key, so `countKey` matches `ensureToday`. -/
lemma countKey_modifyToday (d today : String) (f : TimeRecord → TimeRecord)
    (recs : RecMap) :
    countKey d (modifyToday today f recs)
      = countKey d (ensureToday today recs) := by
  rw [countKey_eq_count, countKey_eq_count, keys_modifyToday]

/-- After starting today's record, at most one today-keyed record is
running (with distinct keys). -/
lemma countRunningAt_startToday (today : String) (now : ℚ) (recs : RecMap)
    (h : (recs.map Prod.fst).Nodup) :
    countRunningAt today (startToday today now recs) ≤ 1 := by
  calc countRunningAt today (startToday today now recs)
      ≤ countKey today (startToday today now recs) :=
        countRunningAt_le_countKey _ _
    _ = countKey today (ensureToday today recs) := countKey_modifyToday _ _ _ _
    _ ≤ 1 := countKey_le_one _ _ (keysNodup_ensureToday today recs h)

/-- The map `stopTodayIfRunning` preserves distinctness of keys. -/
lemma keysNodup_stopTodayIfRunning (today : String) (now : ℚ) (recs : RecMap)
    (h : (recs.map Prod.fst).Nodup) :
    ((stopTodayIfRunning today now recs).map Prod.fst).Nodup := by
  unfold stopTodayIfRunning
  rw [keys_modifyToday]
  exact keysNodup_ensureToday today recs h

/-- Summing a nonnegative weight over `updateFirst`: if every element
weighs nothing and the updated element weighs at most one, the total is
at most one. -/
lemma sum_map_updateFirst_le {α : Type} (pred : α → Bool) (f : α → α)
    (c : α → ℕ) (xs : List α)
    (h0 : ∀ x ∈ xs, c x = 0) (hf : ∀ x ∈ xs, c (f x) ≤ 1) :
    ((updateFirst pred f xs).map c).sum ≤ 1 := by
  induction xs with
  | nil => simp [updateFirst]
  | cons x xs ih =>
    by_cases hp : pred x
    · have hz : ∀ y ∈ xs.map c, y = 0 := by
        intro y hy
        rcases List.mem_map.mp hy with ⟨z, hz, rfl⟩
        exact h0 z (List.mem_cons_of_mem _ hz)
      have : (xs.map c).sum = 0 := List.sum_eq_zero hz
      simp [updateFirst, hp, this]
      exact hf x (List.mem_cons_self _ _)
    · have hx : c x = 0 := h0 x (List.mem_cons_self _ _)
      have ihx := ih (fun y hy => h0 y (List.mem_cons_of_mem _ hy))
        (fun y hy => hf y (List.mem_cons_of_mem _ hy))
      simp [updateFirst, hp, hx]
      exact ihx

/-- Two successive `updateFirst`s on the same predicate compose, when the
first update preserves the predicate. -/
lemma updateFirst_comp {α : Type} (pred : α → Bool) (f g : α → α)
    (hpres : ∀ x, pred x = true → pred (f x) = true) (xs : List α) :
    updateFirst pred g (updateFirst pred f xs)
      = updateFirst pred (fun x => g (f x)) xs := by
  induction xs with
  | nil => rfl
  | cons x xs ih =>
    by_cases hp : pred x
    · simp [updateFirst, hp, hpres x hp]
    · simp [updateFirst, hp, ih]

/-- C1 amended: on a well-formed store (distinct date keys per record map
and a start stamp on every running record), after `start_current_timer()`
at most one project today-record and at most one sub-activity
today-record is running — at most two running today-records in total. -/
theorem c1_amended_at_most_one_per_kind (m : Manager) (today : String)
    (now : ℚ) (hwf : m.WF) :
    (m.start_current_timer today now).2.projRunningAt today ≤ 1
    ∧ (m.start_current_timer today now).2.subRunningAt today ≤ 1 := by
  classical
  -- facts about the state after `stop_all_timers`
  have hstop : ∀ p ∈ (m.stop_all_timers today now).projects,
      countRunningAt today p.time_records = 0
      ∧ (∀ s ∈ p.sub_activities, countRunningAt today s.time_records = 0)
      ∧ (p.time_records.map Prod.fst).Nodup
      ∧ (∀ s ∈ p.sub_activities, (s.time_records.map Prod.fst).Nodup) := by
    intro p hp
    unfold Manager.stop_all_timers at hp
    simp only [List.mem_map] at hp
    rcases hp with ⟨p0, hp0, rfl⟩
    rcases hwf p0 hp0 with ⟨⟨hnd0, hls0⟩, hsubs0⟩
    refine ⟨?_, ?_, ?_, ?_⟩
    · exact countRunningAt_stopTodayIfRunning today now _ hls0
    · intro s hs
      unfold Project.stopAllToday at hs
      simp only [List.mem_map] at hs
      rcases hs with ⟨s0, hs0, rfl⟩
      exact countRunningAt_stopTodayIfRunning today now _ (hsubs0 s0 hs0).2
    · exact keysNodup_stopTodayIfRunning today now _ hnd0
    · intro s hs
      unfold Project.stopAllToday at hs
      simp only [List.mem_map] at hs
      rcases hs with ⟨s0, hs0, rfl⟩
      exact keysNodup_stopTodayIfRunning today now _ (hsubs0 s0 hs0).1
  rcases hcp : (m.stop_all_timers today now).get_current_project with _ | p
  · have hres : (m.start_current_timer today now).2
        = m.stop_all_timers today now := by
      simp [Manager.start_current_timer, hcp]
    rw [hres]
    constructor
    · unfold Manager.projRunningAt
      have : ∀ y ∈ ((m.stop_all_timers today now).projects.map
          (fun p => countRunningAt today p.time_records)), y = 0 := by
        intro y hy
        rcases List.mem_map.mp hy with ⟨q, hq, rfl⟩
        exact (hstop q hq).1
      simp [List.sum_eq_zero this]
    · unfold Manager.subRunningAt
      have : ∀ y ∈ ((m.stop_all_timers today now).projects.map
          (fun p => (p.sub_activities.map
            (fun s => countRunningAt today s.time_records)).sum)), y = 0 := by
        intro y hy
        rcases List.mem_map.mp hy with ⟨q, hq, rfl⟩
        apply List.sum_eq_zero
        intro z hz
        rcases List.mem_map.mp hz with ⟨s, hs, rfl⟩
        exact (hstop q hq).2.1 s hs
      simp [List.sum_eq_zero this]
  · -- a current project resolves: the result is one `updateFirst` over the
    -- stopped project list
    have halias : ∀ q : Project,
        (Project.startOwnToday today now q).alias = q.alias := fun _ => rfl
    have hkey : ∃ F : Project → Project,
        (m.start_current_timer today now).2.projects
          = updateFirst (fun q => q.alias == p.alias) F
              (m.stop_all_timers today now).projects
        ∧ (∀ q, (F q).time_records = startToday today now q.time_records)
        ∧ (∀ q, (F q).sub_activities = q.sub_activities
            ∨ ∃ sa, (F q).sub_activities
                = updateFirst (fun s => s.alias == sa)
                    (SubActivity.startOwnToday today now)
                    q.sub_activities) := by
      have hsub : (m.stop_all_timers today now).current_sub_activity_alias
          = m.current_sub_activity_alias := rfl
      rcases hsa : m.current_sub_activity_alias with _ | sa
      · refine ⟨Project.startOwnToday today now, ?_, fun q => rfl,
          fun q => Or.inl rfl⟩
        simp only [Manager.start_current_timer]
        rw [hcp]
        simp [Manager.stop_all_timers, hsa]
      · by_cases hemp : sa == ""
        · refine ⟨Project.startOwnToday today now, ?_, fun q => rfl,
            fun q => Or.inl rfl⟩
          simp only [Manager.start_current_timer]
          rw [hcp]
          simp [Manager.stop_all_timers, hsa, hemp]
        · refine ⟨fun q => Project.startSubToday sa today now
              (Project.startOwnToday today now q), ?_, fun q => rfl,
            fun q => Or.inr ⟨sa, rfl⟩⟩
          have hcomp := updateFirst_comp (fun q => q.alias == p.alias)
            (Project.startOwnToday today now)
            (Project.startSubToday sa today now)
            (fun x hx => by
              show ((Project.startOwnToday today now x).alias == p.alias)
                = true
              rw [halias x]
              exact hx)
            (m.stop_all_timers today now).projects
          simp only [Manager.start_current_timer]
          rw [hcp]
          simp only [Manager.stop_all_timers, hsa, hemp] at hcomp ⊢
          simpa using hcomp
    rcases hkey with ⟨F, hproj, hTR, hSub⟩
    constructor
    · unfold Manager.projRunningAt
      rw [hproj]
      apply sum_map_updateFirst_le
      · intro q hq
        exact (hstop q hq).1
      · intro q hq
        rw [hTR q]
        exact countRunningAt_startToday today now _ (hstop q hq).2.2.1
    · unfold Manager.subRunningAt
      rw [hproj]
      apply sum_map_updateFirst_le
      · intro q hq
        apply List.sum_eq_zero
        intro z hz
        rcases List.mem_map.mp hz with ⟨s, hs, rfl⟩
        exact (hstop q hq).2.1 s hs
      · intro q hq
        rcases hSub q with hsame | ⟨sa, hupd⟩
        · rw [hsame]
          have hz : ((q.sub_activities.map
              (fun s => countRunningAt today s.time_records)).sum) = 0 := by
            apply List.sum_eq_zero
            intro z hz
            rcases List.mem_map.mp hz with ⟨s, hs, rfl⟩
            exact (hstop q hq).2.1 s hs
          omega
        · rw [hupd]
          apply sum_map_updateFirst_le
          · intro s hs
            exact (hstop q hq).2.1 s hs
          · intro s hs
            show countRunningAt today
              (SubActivity.startOwnToday today now s).time_records ≤ 1
            have : (SubActivity.startOwnToday today now s).time_records
                = startToday today now s.time_records := rfl
            rw [this]
            exact countRunningAt_startToday today now _
              ((hstop q hq).2.2.2 s hs)

/-- Closed instance of the amended C1 invariant on the two-selection
example store. -/
theorem c1_amended_at_most_one_per_kind_witness :
    (exMgr.start_current_timer "2024-01-02" 0).2.projRunningAt "2024-01-02"
        ≤ 1
    ∧ (exMgr.start_current_timer "2024-01-02" 0).2.subRunningAt "2024-01-02"
        ≤ 1 :=
  c1_amended_at_most_one_per_kind exMgr "2024-01-02" 0 (by
    intro p hp
    simp only [exMgr, List.mem_singleton] at hp
    subst hp
    refine ⟨⟨by simp [exProj], by simp [exProj]⟩, ?_⟩
    intro s hs
    simp only [exProj, exSub, List.mem_singleton] at hs
    subst hs
    exact ⟨by simp, by simp⟩)

/-! ## C3: switching projects and the sub-activity selection -/

/-- C3 fails as stated: `set_current_project` on an unknown alias returns
false and leaves the previous sub-activity selection in place. -/
theorem c3_unknown_alias_counterexample :
    (exMgr.set_current_project "zzz").1 = false
    ∧ (exMgr.set_current_project "zzz").2.current_sub_activity_alias
        = some "s" := by
  decide

/-- C3 amended: a successful `set_current_project(x)` always clears
`current_sub_activity_alias`; a failed one (unknown alias) leaves the
whole store unchanged, previous sub-activity selection included. -/
theorem c3_set_current_project_clears_sub (m : Manager) (x : String) :
    ((m.set_current_project x).1 = true →
      (m.set_current_project x).2.current_sub_activity_alias = none)
    ∧ ((m.set_current_project x).1 = false →
      (m.set_current_project x).2 = m) := by
  unfold Manager.set_current_project
  by_cases h : (m.get_project x).isSome <;> simp [h]

theorem c3_set_current_project_clears_sub_witness :
    (exMgr.set_current_project "p").2.current_sub_activity_alias = none :=
  (c3_set_current_project_clears_sub exMgr "p").1 (by decide)

/-! ## C4: start_current_timer failure path -/

/-- C4 fails as stated: with no current project selected but one timer
running, `start_current_timer()` returns false yet the running timer
has been stopped, so the timer state is not unchanged. -/
theorem c4_failure_not_frame_counterexample :
    (runMgr.start_current_timer "2024-01-02" 5).1 = false
    ∧ runMgr.runningCount = 1
    ∧ (runMgr.start_current_timer "2024-01-02" 5).2.runningCount = 0 := by
  decide

/-- C4 amended: `start_current_timer()` returns false when no current
project resolves, but `stop_all_timers()` runs unconditionally before
that check, so on the failure path the resulting state is exactly
`stop_all_timers` applied to the store (running today-records stopped,
today-records created), not the unchanged state. -/
theorem c4_start_current_timer_failure (m : Manager) (today : String)
    (now : ℚ) :
    (pyTruthy m.current_project_alias = false →
      (m.start_current_timer today now).1 = false)
    ∧ ((m.start_current_timer today now).1 = false →
      (m.start_current_timer today now).2 = m.stop_all_timers today now) := by
  constructor
  · intro h
    have hnone : (m.stop_all_timers today now).get_current_project = none := by
      unfold Manager.get_current_project Manager.stop_all_timers
      rcases hc : m.current_project_alias with _ | a
      · simp
      · simp [pyTruthy, hc] at h
        simp [h]
    simp [Manager.start_current_timer, hnone]
  · intro h
    rcases hcp : (m.stop_all_timers today now).get_current_project with _ | p
    · simp [Manager.start_current_timer, hcp]
    · exfalso
      simp [Manager.start_current_timer, hcp] at h

theorem c4_start_current_timer_failure_witness :
    (runMgr.start_current_timer "2024-01-02" 5).1 = false :=
  (c4_start_current_timer_failure runMgr "2024-01-02" 5).1 (by decide)

/-! ## C5: duplicate sub-activity aliases -/

/-- C5 fails as stated: adding a sub-activity whose alias already exists
in the project is not rejected — the call returns the new sub-activity
and the list grows, leaving the alias present twice. -/
theorem c5_duplicate_alias_counterexample :
    (exProj.add_sub_activity "Another" "s").2.sub_activities.length = 2
    ∧ (exProj.add_sub_activity "Another" "s").1
        = ⟨"Another", "s", ([] : RecMap)⟩
    ∧ countSubAlias "s" (exProj.add_sub_activity "Another" "s").2 = 2 := by
  decide

/-- C5 amended: `add_sub_activity` never rejects: even when the project
already has a sub-activity with alias `a`, it appends another one and
returns it, so the number of sub-activities carrying alias `a` grows to
at least two — duplicate aliases within a project are possible. -/
theorem c5_add_sub_activity_never_rejects (p : Project) (name a : String)
    (h : p.get_sub_activity a ≠ none) :
    countSubAlias a (p.add_sub_activity name a).2 = countSubAlias a p + 1
    ∧ 2 ≤ countSubAlias a (p.add_sub_activity name a).2
    ∧ (p.add_sub_activity name a).1 = ⟨name, a, ([] : RecMap)⟩ := by
  have hgrow : countSubAlias a (p.add_sub_activity name a).2
      = countSubAlias a p + 1 := by
    unfold countSubAlias Project.add_sub_activity
    simp
  have hpos : 1 ≤ countSubAlias a p := by
    unfold Project.get_sub_activity at h
    rcases hf : p.sub_activities.find? (fun s => s.alias == a) with _ | s
    · exact absurd hf h
    · have hmem := List.mem_of_find?_eq_some hf
      have hal := List.find?_some hf
      unfold countSubAlias
      have : s ∈ p.sub_activities.filter (fun s => s.alias == a) :=
        List.mem_filter.mpr ⟨hmem, hal⟩
      calc 1 ≤ 1 := le_refl 1
        _ ≤ _ := List.length_pos.mpr (List.ne_nil_of_mem this)
  exact ⟨hgrow, by omega, rfl⟩

theorem c5_add_sub_activity_never_rejects_witness :
    countSubAlias "s" (exProj.add_sub_activity "Another" "s").2
      = countSubAlias "s" exProj + 1 :=
  (c5_add_sub_activity_never_rejects exProj "Another" "s" (by decide)).1

/-! ## C10: stop_all_timers only touches today's records -/

/-- The entries of a record map keyed to date `d`. -/
def recsAtKey (d : String) (recs : RecMap) : RecMap :=
  recs.filter (fun kv => kv.1 == d)

/-- The map `modifyToday` leaves the entries of every other date untouched. -/
lemma recsAtKey_modifyToday (d today : String) (hd : d ≠ today)
    (f : TimeRecord → TimeRecord) (recs : RecMap) :
    recsAtKey d (modifyToday today f recs) = recsAtKey d recs := by
  unfold modifyToday recsAtKey
  have hfst : ∀ kv : String × TimeRecord,
      ((if kv.1 == today then (kv.1, f kv.2) else kv) : String × TimeRecord).1
        = kv.1 := by
    intro kv
    split <;> rfl
  have h1 : ∀ l : RecMap,
      (l.map (fun kv => if kv.1 == today then (kv.1, f kv.2) else kv)).filter
          (fun kv => kv.1 == d)
        = l.filter (fun kv => kv.1 == d) := by
    intro l
    rw [List.filter_map]
    have h2 : l.filter ((fun kv : String × TimeRecord => kv.1 == d) ∘
          (fun kv => if kv.1 == today then (kv.1, f kv.2) else kv))
        = l.filter (fun kv => kv.1 == d) := by
      apply List.filter_congr
      intro kv _
      simp only [Function.comp_apply, hfst kv]
    rw [h2]
    conv_rhs => rw [← List.map_id (l.filter (fun kv => kv.1 == d))]
    apply List.map_congr_left
    intro kv hkv
    have hkd : kv.1 = d := by
      simpa [beq_iff_eq] using (List.mem_filter.mp hkv).2
    have : (kv.1 == today) = false := by
      simp [beq_iff_eq, hkd]
      exact hd
    simp [this]
  rw [h1]
  unfold ensureToday
  by_cases hc : containsKey today recs
  · simp [hc]
  · have hfd : ((today, TimeRecord.fresh today).1 == d) = false := by
      simp [beq_iff_eq]
      exact fun h => hd h.symm
    simp [hc, List.filter_append, hfd]

/-- The map `modifyToday` guarantees a today entry afterwards. -/
lemma containsKey_modifyToday (today : String) (f : TimeRecord → TimeRecord)
    (recs : RecMap) :
    containsKey today (modifyToday today f recs) = true := by
  rw [containsKey_iff, keys_modifyToday]
  unfold ensureToday
  by_cases hc : containsKey today recs
  · simpa [hc] using (containsKey_iff today recs).mp hc
  · simp [hc]

/-- C10: `stop_all_timers` reads and writes only today-keyed records:
every project's and sub-activity's records under any other date key are
exactly preserved (structure aligned), and afterwards every project and
sub-activity owns a today-keyed record (created where absent).  In
particular a record running under a past date key is still running. -/
theorem c10_stop_all_timers_other_dates_frame (m : Manager)
    (today : String) (now : ℚ) (d : String) (hd : d ≠ today) :
    ((m.stop_all_timers today now).projects.map
        (fun p => recsAtKey d p.time_records))
      = m.projects.map (fun p => recsAtKey d p.time_records)
    ∧ ((m.stop_all_timers today now).projects.map
        (fun p => p.sub_activities.map (fun s => recsAtKey d s.time_records)))
      = m.projects.map
          (fun p => p.sub_activities.map (fun s => recsAtKey d s.time_records))
    ∧ ∀ p ∈ (m.stop_all_timers today now).projects,
        containsKey today p.time_records = true
        ∧ ∀ s ∈ p.sub_activities, containsKey today s.time_records = true := by
  refine ⟨?_, ?_, ?_⟩
  · unfold Manager.stop_all_timers
    simp only [List.map_map]
    apply List.map_congr_left
    intro p _
    simp only [Function.comp_apply, Project.stopAllToday]
    exact recsAtKey_modifyToday d today hd _ p.time_records
  · unfold Manager.stop_all_timers
    simp only [List.map_map]
    apply List.map_congr_left
    intro p _
    simp only [Function.comp_apply, Project.stopAllToday, List.map_map]
    apply List.map_congr_left
    intro s _
    simp only [Function.comp_apply]
    exact recsAtKey_modifyToday d today hd _ s.time_records
  · intro p hp
    unfold Manager.stop_all_timers at hp
    rcases List.mem_map.mp hp with ⟨p0, hp0, rfl⟩
    constructor
    · show containsKey today
        (stopTodayIfRunning today now p0.time_records) = true
      exact containsKey_modifyToday today _ p0.time_records
    · intro s hs
      unfold Project.stopAllToday at hs
      simp only [List.mem_map] at hs
      rcases hs with ⟨s0, hs0, rfl⟩
      show containsKey today
        (stopTodayIfRunning today now s0.time_records) = true
      exact containsKey_modifyToday today _ s0.time_records

theorem c10_stop_all_timers_other_dates_frame_witness :
    ((runMgr.stop_all_timers "2024-01-03" 7).projects.map
        (fun p => recsAtKey "2024-01-02" p.time_records))
      = runMgr.projects.map (fun p => recsAtKey "2024-01-02" p.time_records) :=
  (c10_stop_all_timers_other_dates_frame runMgr "2024-01-03" 7 "2024-01-02"
    (by decide)).1

/-! ## C7: backup retention

`_create_backup` / `_cleanup_old_backups`, modelled on the backup
directory contents for one data-file stem.  A backup filename embeds the
timestamp `YYYYMMDD_HHMMSS` of the save that produced it and sorting by
filename is sorting by that timestamp, so backups are modelled as their
timestamps (naturals). -/

/-- The backup directory plus the data file's existence. -/
structure BackupState where
  fileExists : Bool
  backups : List ℕ
deriving DecidableEq, Repr

/-- Python `_cleanup_old_backups`: sort the globbed backup files, and when
strictly more than `max_backups` exist delete the Python slice
`backup_files[:-max_backups]`; for `max_backups = 0` that slice is empty,
so nothing is deleted. -/
def cleanupOldBackups (maxBackups : ℕ) (files : List ℕ) : List ℕ :=
  let sorted := files.insertionSort (· ≤ ·)
  if maxBackups < sorted.length then
    if maxBackups = 0 then sorted
    else sorted.drop (sorted.length - maxBackups)
  else sorted

/-- One `save_projects` call that passes the debounce check and writes
successfully, with backups enabled: if the data file already exists it is
first copied to a backup stamped `t` and the cleanup runs; afterwards the
data file exists. -/
def saveWithBackup (maxBackups t : ℕ) (st : BackupState) : BackupState :=
  if st.fileExists then
    { fileExists := true,
      backups := cleanupOldBackups maxBackups (st.backups ++ [t]) }
  else
    { fileExists := true, backups := st.backups }

/-- A sequence of saves at the given timestamps. -/
def runSaves (maxBackups : ℕ) (ts : List ℕ) (st : BackupState) :
    BackupState :=
  ts.foldl (fun st t => saveWithBackup maxBackups t st) st

/-- The `k` most recent entries (the last `k` of an ascending list). -/
def lastK (k : ℕ) (l : List ℕ) : List ℕ := l.drop (l.length - k)

/-- C7 fails as stated for `max_backups = 0`: after 2 saves the single
backup made is never deleted (`backup_files[:-0]` is the empty slice), so
1 backup remains where the claim demands exactly 0. -/
theorem c7_zero_retention_counterexample :
    (runSaves 0 [1, 2] ⟨false, []⟩).backups = [2] := by
  decide

lemma lastK_cons (k x : ℕ) (l : List ℕ) (h : k ≤ l.length) :
    lastK k (x :: l) = lastK k l := by
  unfold lastK
  have hlen : (x :: l).length - k = (l.length - k) + 1 := by
    simp only [List.length_cons]
    omega
  rw [hlen, List.drop_succ_cons]

/-- Retention invariant: starting from an existing data file and at most
`k` backups, strictly ascending save timestamps leave exactly the `k`
most recent backups. -/
lemma runSaves_backups (k : ℕ) (hk : 1 ≤ k) :
    ∀ (ts b : List ℕ), (b ++ ts).Pairwise (· < ·) → b.length ≤ k →
      (runSaves k ts ⟨true, b⟩).backups = lastK k (b ++ ts) := by
  intro ts
  induction ts with
  | nil =>
    intro b hp hlen
    unfold runSaves lastK
    simp only [List.foldl_nil, List.append_nil]
    rw [Nat.sub_eq_zero_of_le hlen, List.drop_zero]
  | cons t ts ih =>
    intro b hp hlen
    have hsub1 : List.Sublist (b ++ [t]) (b ++ (t :: ts)) :=
      (List.cons_sublist_cons.mpr (List.nil_sublist ts)).append_left b
    have hpbt : (b ++ [t]).Pairwise (· < ·) := hp.sublist hsub1
    have hsorted : (b ++ [t]).Sorted (· ≤ ·) :=
      hpbt.imp le_of_lt
    have hstep : runSaves k (t :: ts) ⟨true, b⟩
        = runSaves k ts ⟨true, cleanupOldBackups k (b ++ [t])⟩ := by
      unfold runSaves
      simp [saveWithBackup]
    rw [hstep]
    have hsort_eq : (b ++ [t]).insertionSort (· ≤ ·) = b ++ [t] :=
      hsorted.insertionSort_eq
    by_cases hcase : k < (b ++ [t]).length
    · -- the cleanup fires: here `b.length = k ≥ 1`
      have hblen : b.length = k := by
        simp only [List.length_append, List.length_singleton] at hcase
        omega
      have hclean : cleanupOldBackups k (b ++ [t]) = (b ++ [t]).drop 1 := by
        have hk0 : ¬(k = 0) := by omega
        have hd1 : (b ++ [t]).length - k = 1 := by
          simp only [List.length_append, List.length_singleton]
          omega
        simp only [cleanupOldBackups]
        rw [hsort_eq, if_pos hcase, if_neg hk0, hd1]
      rcases b with _ | ⟨x, b0⟩
      · exfalso
        simp at hblen
        omega
      · have hb' : ((x :: b0) ++ [t]).drop 1 = b0 ++ [t] := by
          simp
        rw [hclean, hb']
        have hsub2 : List.Sublist ((b0 ++ [t]) ++ ts)
            (((x :: b0) ++ [t]) ++ ts) := by
          apply List.Sublist.append_right
          apply List.sublist_cons_of_sublist
          exact List.Sublist.refl _
        have hp' : ((b0 ++ [t]) ++ ts).Pairwise (· < ·) := by
          apply List.Pairwise.sublist _ hp
          simpa [List.append_assoc] using hsub2
        have hlen' : (b0 ++ [t]).length ≤ k := by
          simp only [List.length_append, List.length_singleton]
          simp only [List.length_cons] at hblen
          omega
        have hres := ih (b0 ++ [t]) (by simpa [List.append_assoc] using hp')
          hlen'
        rw [hres]
        have hgoal : (x :: b0) ++ t :: ts = x :: ((b0 ++ [t]) ++ ts) := by
          simp
        have hlenk : k ≤ ((b0 ++ [t]) ++ ts).length := by
          simp only [List.length_append, List.length_singleton,
            List.length_cons] at hblen ⊢
          omega
        rw [hgoal, lastK_cons k x ((b0 ++ [t]) ++ ts) hlenk]
    · -- nothing to clean up yet
      have hclean : cleanupOldBackups k (b ++ [t]) = b ++ [t] := by
        simp only [cleanupOldBackups]
        rw [hsort_eq, if_neg hcase]
      rw [hclean]
      have hp' : ((b ++ [t]) ++ ts).Pairwise (· < ·) := by
        simpa [List.append_assoc] using hp
      have hlen' : (b ++ [t]).length ≤ k := by
        simp only [List.length_append, List.length_singleton] at hcase ⊢
        omega
      have hres := ih (b ++ [t]) hp' hlen'
      rw [hres]
      simp [List.append_assoc]

/-- C7 amended: for retention count `k ≥ 1`, after `N = 1 + ts.length`
saves at strictly ascending timestamps starting from no data file
(`k < N`, backups enabled), exactly `k` backup files remain and they are
the `k` most recent (a backup is created by every save but the first,
which finds no file to copy). -/
theorem c7_backup_retention (k : ℕ) (hk : 1 ≤ k) (t0 : ℕ) (ts : List ℕ)
    (hmono : (t0 :: ts).Pairwise (· < ·)) (hN : k ≤ ts.length) :
    (runSaves k (t0 :: ts) ⟨false, []⟩).backups = lastK k ts
    ∧ (runSaves k (t0 :: ts) ⟨false, []⟩).backups.length = k := by
  have hstep : runSaves k (t0 :: ts) ⟨false, []⟩
      = runSaves k ts ⟨true, []⟩ := by
    unfold runSaves
    simp [saveWithBackup]
  have h := runSaves_backups k hk ts []
    (by simpa using hmono.of_cons) (by simp)
  have hlast : (lastK k ts).length = k := by
    unfold lastK
    simp only [List.length_drop]
    omega
  constructor
  · rw [hstep]
    simpa using h
  · rw [hstep]
    have h' : (runSaves k ts ⟨true, []⟩).backups = lastK k ts := by
      simpa using h
    rw [h', hlast]

theorem c7_backup_retention_witness :
    (runSaves 2 [1, 2, 3, 4] ⟨false, []⟩).backups = lastK 2 [2, 3, 4]
    ∧ (runSaves 2 [1, 2, 3, 4] ⟨false, []⟩).backups.length = 2 :=
  c7_backup_retention 2 (by decide) 1 [2, 3, 4] (by decide) (by decide)

/-! ## C8: autosave debounce

`save_projects(force)`, modelled on the state it reads and writes: the
last-save timestamp, the data file's existence, and counters for
completed file writes and backups made.  `ioOk` models whether the
write raises `OSError` (caught and reported as `False`). -/

structure SaveState where
  last_save_time : ℚ
  fileExists : Bool
  writes : ℕ
  backupsMade : ℕ
deriving DecidableEq, Repr

/-- Python `save_projects(force)` at wall-clock `now`: the debounce check runs
first (strictly less than `auto_save_interval` since the last save);
then a backup if enabled and the file exists; then the write, updating
`last_save_time` only when it succeeds. -/
def save_projects (interval : ℚ) (backupEnabled force : Bool) (now : ℚ)
    (ioOk : Bool) (st : SaveState) : Bool × SaveState :=
  if force = false ∧ now - st.last_save_time < interval then (false, st)
  else
    let st1 := if backupEnabled = true ∧ st.fileExists = true then
        { st with backupsMade := st.backupsMade + 1 }
      else st
    if ioOk then
      (true, { st1 with writes := st1.writes + 1, fileExists := true,
                        last_save_time := now })
    else (false, st1)

/-- Full case analysis of one `save_projects` call. -/
lemma save_projects_spec (interval : ℚ) (be force : Bool) (now : ℚ)
    (io : Bool) (st : SaveState) :
    (save_projects interval be force now io st = (false, st)
      ∧ force = false ∧ now - st.last_save_time < interval)
    ∨ ((save_projects interval be force now io st).1 = true ∧ io = true
      ∧ (save_projects interval be force now io st).2.writes = st.writes + 1
      ∧ (save_projects interval be force now io st).2.last_save_time = now
      ∧ ¬(force = false ∧ now - st.last_save_time < interval))
    ∨ ((save_projects interval be force now io st).1 = false ∧ io = false
      ∧ (save_projects interval be force now io st).2.writes = st.writes
      ∧ (save_projects interval be force now io st).2.last_save_time
          = st.last_save_time
      ∧ ¬(force = false ∧ now - st.last_save_time < interval)) := by
  unfold save_projects
  by_cases h1 : force = false ∧ now - st.last_save_time < interval
  · left
    simp [h1]
  · by_cases h3 : io = true
    · right; left
      by_cases h2 : be = true ∧ st.fileExists = true <;>
        simp [h1, h2, h3]
    · right; right
      have h3' : io = false := by
        rcases io <;> simp at h3 ⊢
      by_cases h2 : be = true ∧ st.fileExists = true <;>
        simp [h1, h2, h3']

/-- C8 fails as stated: with the last successful save recent (here at
time 0, interval 300), two further `save(force=false)` calls at times 10
and 20 — within less than one interval of each other — are both
debounced, so they perform zero file writes, not exactly one. -/
theorem c8_two_debounced_saves_counterexample :
    ((20 : ℚ) - 10 < 300)
    ∧ (save_projects 300 true false 20 true
        (save_projects 300 true false 10 true ⟨0, true, 0, 0⟩).2).2.writes
      = 0 := by
  have h1 : save_projects 300 true false 10 true ⟨0, true, 0, 0⟩
      = (false, ⟨0, true, 0, 0⟩) := by
    unfold save_projects
    norm_num
  have h2 : save_projects 300 true false 20 true ⟨0, true, 0, 0⟩
      = (false, ⟨0, true, 0, 0⟩) := by
    unfold save_projects
    norm_num
  refine ⟨by norm_num, ?_⟩
  rw [h1, h2]

/-- C8 amended: a `save(force=false)` within the debounce window is a
strict no-op returning false (no write, no backup, no state change); the
last-save timestamp moves exactly when a write succeeds; and two
`save(force=false)` calls less than `auto_save_interval` apart perform at
most one file write — exactly one when the first call is outside the
debounce window and its write succeeds. -/
theorem c8_save_debounce (interval : ℚ) (be : Bool) (st : SaveState) :
    (∀ (now : ℚ) (io : Bool), now - st.last_save_time < interval →
      save_projects interval be false now io st = (false, st))
    ∧ (∀ (force : Bool) (now : ℚ) (io : Bool),
        (save_projects interval be force now io st).1 = false →
          (save_projects interval be force now io st).2.last_save_time
              = st.last_save_time
            ∧ (save_projects interval be force now io st).2.writes
              = st.writes)
    ∧ (∀ (force : Bool) (now : ℚ) (io : Bool),
        (save_projects interval be force now io st).1 = true →
          (save_projects interval be force now io st).2.last_save_time = now
            ∧ (save_projects interval be force now io st).2.writes
              = st.writes + 1)
    ∧ (∀ (t1 t2 : ℚ) (io1 io2 : Bool), t2 - t1 < interval →
        (save_projects interval be false t2 io2
            (save_projects interval be false t1 io1 st).2).2.writes
          ≤ st.writes + 1)
    ∧ (∀ (t1 t2 : ℚ), ¬(t1 - st.last_save_time < interval) →
        t2 - t1 < interval →
        (save_projects interval be false t2 true
            (save_projects interval be false t1 true st).2).2.writes
          = st.writes + 1) := by
  have hfalse : ∀ (force : Bool) (now : ℚ) (io : Bool) (s : SaveState),
      (save_projects interval be force now io s).1 = false →
        (save_projects interval be force now io s).2.last_save_time
            = s.last_save_time
          ∧ (save_projects interval be force now io s).2.writes
            = s.writes := by
    intro force now io s hres
    rcases save_projects_spec interval be force now io s with
      ⟨heq, _, _⟩ | ⟨ht, _⟩ | ⟨_, _, hw, hl, _⟩
    · rw [heq]
      exact ⟨rfl, rfl⟩
    · rw [ht] at hres
      simp at hres
    · exact ⟨hl, hw⟩
  have htrue : ∀ (force : Bool) (now : ℚ) (io : Bool) (s : SaveState),
      (save_projects interval be force now io s).1 = true →
        (save_projects interval be force now io s).2.last_save_time = now
          ∧ (save_projects interval be force now io s).2.writes
            = s.writes + 1 := by
    intro force now io s hres
    rcases save_projects_spec interval be force now io s with
      ⟨heq, _, _⟩ | ⟨_, _, hw, hl, _⟩ | ⟨hf, _⟩
    · rw [heq] at hres
      simp at hres
    · exact ⟨hl, hw⟩
    · rw [hf] at hres
      simp at hres
  have hdeb : ∀ (now : ℚ) (io : Bool) (s : SaveState),
      now - s.last_save_time < interval →
        save_projects interval be false now io s = (false, s) := by
    intro now io s h
    unfold save_projects
    rw [if_pos ⟨rfl, h⟩]
  refine ⟨fun now io h => hdeb now io st h,
    fun force now io => hfalse force now io st,
    fun force now io => htrue force now io st, ?_, ?_⟩
  · intro t1 t2 io1 io2 hlt
    have key : ∀ s1 : SaveState, s1.last_save_time = t1 →
        (save_projects interval be false t2 io2 s1).2.writes = s1.writes := by
      intro s1 hl
      have hin : t2 - s1.last_save_time < interval := by
        rw [hl]
        exact hlt
      rw [hdeb t2 io2 s1 hin]
    rcases hb1 : (save_projects interval be false t1 io1 st).1 with _ | _
    · -- first call failed or was debounced: its state kept the counters
      rcases hfalse false t1 io1 st hb1 with ⟨hl1, hw1⟩
      rcases hb2 : (save_projects interval be false t2 io2
          (save_projects interval be false t1 io1 st).2).1 with _ | _
      · rcases hfalse false t2 io2 _ hb2 with ⟨_, hw2⟩
        rw [hw2, hw1]
        omega
      · rcases htrue false t2 io2 _ hb2 with ⟨_, hw2⟩
        rw [hw2, hw1]
    · -- first call wrote: the second is debounced
      rcases htrue false t1 io1 st hb1 with ⟨hl1, hw1⟩
      rw [key _ hl1, hw1]
  · intro t1 t2 h1 hlt
    have key : ∀ s1 : SaveState, s1.last_save_time = t1 →
        (save_projects interval be false t2 true s1).2.writes = s1.writes := by
      intro s1 hl
      have hin : t2 - s1.last_save_time < interval := by
        rw [hl]
        exact hlt
      rw [hdeb t2 true s1 hin]
    rcases hb1 : (save_projects interval be false t1 true st).1 with _ | _
    · -- impossible: an eligible save with a successful write returns true
      exfalso
      rcases save_projects_spec interval be false t1 true st with
        ⟨_, _, hd⟩ | ⟨ht, _⟩ | ⟨_, hio, _⟩
      · exact h1 hd
      · rw [ht] at hb1
        simp at hb1
      · simp at hio
    · rcases htrue false t1 true st hb1 with ⟨hl1, hw1⟩
      rw [key _ hl1, hw1]

theorem c8_save_debounce_witness :
    save_projects 300 true false 10 true ⟨0, true, 0, 0⟩
      = (false, ⟨0, true, 0, 0⟩) :=
  (c8_save_debounce 300 true ⟨0, true, 0, 0⟩).1 10 true (by norm_num)

/-! ## C6: load_projects and malformed data

`load_projects` parses the backing file with `json.load` and rebuilds the
graph through the dataclass constructors.  Its `except` clause catches
only `FileNotFoundError`, `JSONDecodeError`, `KeyError` and `ValueError`;
a `TypeError` or `AttributeError` raised while rebuilding escapes.
Values are modelled at the types the program itself serializes (the
documented file format); the dataclasses perform no runtime type checks,
so files carrying differently-typed field values are outside this
embedding (marked `typeError` below even where Python would store the
raw value unconverted).  ISO timestamp strings are interpreted by the
caller-supplied `isoVal`. -/

/-- A parsed JSON document (objects are duplicate-key free, as
`json.load` yields). -/
inductive Json where
  | null
  | jb (b : Bool)
  | jn (n : ℤ)
  | js (s : String)
  | jarr (xs : List Json)
  | jobj (kvs : List (String × Json))

/-- An exception class the `except` clause of `load_projects` does not
catch. -/
inductive PyExc where
  | typeError
  | attributeError
deriving DecidableEq, Repr

/-- What the filesystem and `json.load` produced. -/
inductive LoadInput where
  | missing
  | badJson
  | parsed (j : Json)

/-- Lookup `data.get(key)` / `data[key]` on an object. -/
def jsonLookup (key : String) : List (String × Json) → Option Json
  | [] => none
  | kv :: kvs => if kv.1 == key then some kv.2 else jsonLookup key kvs

/-- An integer field with a dataclass default. -/
def asInt (v : Option Json) (dflt : ℤ) : Except PyExc ℤ :=
  match v with
  | none => .ok dflt
  | some (.jn n) => .ok n
  | some _ => .error .typeError

/-- A boolean field with a dataclass default. -/
def asBool (v : Option Json) (dflt : Bool) : Except PyExc Bool :=
  match v with
  | none => .ok dflt
  | some (.jb b) => .ok b
  | some _ => .error .typeError

/-- A string field. -/
def asStr (v : Json) : Except PyExc String :=
  match v with
  | .js s => .ok s
  | _ => .error .typeError

/-- The `last_started` field: `null` or an ISO timestamp string. -/
def asOptTime (isoVal : String → ℚ) (v : Option Json) :
    Except PyExc (Option ℚ) :=
  match v with
  | none => .ok none
  | some .null => .ok none
  | some (.js s) => .ok (some (isoVal s))
  | some _ => .error .typeError

/-- The `sub_activity_seconds` field: an object of integers. -/
def asSubSeconds (v : Option Json) : Except PyExc (List (String × ℤ)) :=
  match v with
  | none => .ok []
  | some (.jobj kvs) =>
    kvs.mapM (fun kv =>
      match kv.2 with
      | .jn n => .ok (kv.1, n)
      | _ => .error .typeError)
  | some _ => .error .typeError

/-- The field names of the `TimeRecord` dataclass. -/
def timeRecordFields (k : String) : Bool :=
  k == "date" || k == "total_seconds" || k == "last_started"
    || k == "is_running" || k == "sub_activity_seconds"

/-- Python `TimeRecord(**record_data)` with `date` forced to the map key:
an unexpected keyword raises `TypeError`; absent fields take the
dataclass defaults. -/
def buildTimeRecord (isoVal : String → ℚ) (dateStr : String) (j : Json) :
    Except PyExc TimeRecord :=
  match j with
  | .jobj kvs =>
    if kvs.all (fun kv => timeRecordFields kv.1) then do
      let ts ← asInt (jsonLookup "total_seconds" kvs) 0
      let ls ← asOptTime isoVal (jsonLookup "last_started" kvs)
      let ir ← asBool (jsonLookup "is_running" kvs) false
      let ss ← asSubSeconds (jsonLookup "sub_activity_seconds" kvs)
      .ok { date := dateStr, total_seconds := ts, last_started := ls,
            is_running := ir, sub_activity_seconds := ss }
    else .error .typeError
  | _ => .error .typeError

/-- Rebuild a `date -> TimeRecord` map (`__post_init__` conversion);
`list(values())` on a non-dict raises `AttributeError`. -/
def buildRecMap (isoVal : String → ℚ) (j : Json) : Except PyExc RecMap :=
  match j with
  | .jobj kvs =>
    kvs.mapM (fun kv => do
      let r ← buildTimeRecord isoVal kv.1 kv.2
      pure (kv.1, r))
  | _ => .error .attributeError

/-- Python `SubActivity(**sub_data)`: all three fields are required, extras
raise `TypeError`. -/
def buildSubActivity (isoVal : String → ℚ) (j : Json) :
    Except PyExc SubActivity :=
  match j with
  | .jobj kvs =>
    if kvs.all (fun kv =>
        kv.1 == "name" || kv.1 == "alias" || kv.1 == "time_records") then
      match jsonLookup "name" kvs, jsonLookup "alias" kvs,
          jsonLookup "time_records" kvs with
      | some nj, some aj, some tj => do
        let nm ← asStr nj
        let al ← asStr aj
        let tr ← buildRecMap isoVal tj
        .ok { name := nm, «alias» := al, time_records := tr }
      | _, _, _ => .error .typeError
    else .error .typeError
  | _ => .error .typeError

/-- The field names of the `Project` dataclass (all required). -/
def projectFields (k : String) : Bool :=
  k == "name" || k == "dz_number" || k == "alias"
    || k == "sub_activities" || k == "time_records"

/-- Python `Project(**proj_data)` and its `__post_init__` conversions: a missing
or unexpected keyword raises `TypeError`. -/
def buildProject (isoVal : String → ℚ) (j : Json) : Except PyExc Project :=
  match j with
  | .jobj kvs =>
    if kvs.all (fun kv => projectFields kv.1) then
      match jsonLookup "name" kvs, jsonLookup "dz_number" kvs,
          jsonLookup "alias" kvs, jsonLookup "sub_activities" kvs,
          jsonLookup "time_records" kvs with
      | some nj, some dj, some aj, some sj, some tj => do
        let nm ← asStr nj
        let dz ← asStr dj
        let al ← asStr aj
        let subs ← (match sj with
          | .jarr xs => xs.mapM (buildSubActivity isoVal)
          | _ => .error .typeError)
        let tr ← buildRecMap isoVal tj
        .ok { name := nm, dz_number := dz, «alias» := al,
              sub_activities := subs, time_records := tr }
      | _, _, _, _, _ => .error .typeError
    else .error .typeError
  | _ => .error .typeError

/-- The two selection pointers, `data.get(...)`. -/
def asOptStr (v : Option Json) : Except PyExc (Option String) :=
  match v with
  | none => .ok none
  | some .null => .ok none
  | some (.js s) => .ok (some s)
  | some _ => .error .typeError

/-- Python `load_projects` on the parsed backing file: a missing file and a
JSON decode error are handled (returning false, state untouched); a
top-level object is rebuilt, the `projects` field only when the key is
present; every other top level raises (`in` on a number is `TypeError`,
`.get` on a list or string is `AttributeError` — for arrays holding the
string "projects", and strings containing it, indexing raises
`TypeError` first). -/
def load_projects_file (isoVal : String → ℚ) (input : LoadInput)
    (m : Manager) : Except PyExc (Bool × Manager) :=
  match input with
  | .missing => .ok (false, m)
  | .badJson => .ok (false, m)
  | .parsed j =>
    match j with
    | .jobj kvs => do
      let ps ← (match jsonLookup "projects" kvs with
        | some (.jarr xs) => xs.mapM (buildProject isoVal)
        | some _ => .error .typeError
        | none => .ok m.projects)
      let cpa ← asOptStr (jsonLookup "current_project_alias" kvs)
      let csa ← asOptStr (jsonLookup "current_sub_activity_alias" kvs)
      .ok (true, { projects := ps, current_project_alias := cpa,
                   current_sub_activity_alias := csa })
    | .jarr xs =>
      let hasKeyStr := xs.any (fun x =>
        match x with
        | .js s => s == "projects"
        | _ => false)
      if hasKeyStr then .error .typeError
      else .error .attributeError
    | .js s =>
      if (s.splitOn "projects").length > 1 then .error .typeError
      else .error .attributeError
    | _ => .error .typeError

/-- A freshly constructed store: no projects, no selection. -/
def freshMgr : Manager := ⟨[], none, none⟩

/-- C6: the code, not the claim, is wrong here.  Loading a file whose
`projects` entry misses required fields raises an uncaught `TypeError`
(`Project(**{})`; the `except` clause does not list `TypeError`), where
the claim and the spec demand no exception and a fallback.  The other
two scenarios behave as claimed on a fresh store: a missing `projects`
key leaves the project list empty without an exception, and malformed
JSON is caught, returning false with the store untouched. -/
theorem c6_load_error_handling :
    load_projects_file (fun _ => 0)
        (.parsed (.jobj [("projects", .jarr [.jobj []])])) freshMgr
      = .error .typeError
    ∧ load_projects_file (fun _ => 0)
        (.parsed (.jobj [("last_saved", .js "2024-06-01T10:00:00")]))
        freshMgr
      = .ok (true, freshMgr)
    ∧ load_projects_file (fun _ => 0) .badJson freshMgr
      = .ok (false, freshMgr) :=
  ⟨rfl, rfl, rfl⟩

end TickTock
